import Mathlib

/-!
Verification of the league-entries CSV collector
(`src/league_entries_csv.py`).

The development shallowly embeds the single procedure of the repository:

* the constant tables `REGIONS`, `QUEUES`, `TIERS`, `DIVISIONS`
  (source lines 23-48);
* `is_special_tier` (lines 51-52);
* the argument-validation block of `get_league_entries_as_csv`
  (lines 59-84), producing the accumulated error string `err`;
* the fetch loop (lines 100-143) as a step function `loopStep` on an
  explicit state plus a fuel-indexed iterator `runLoop` that also counts
  the fetches performed (one HTTP GET per loop iteration);
* the filename derivation (lines 145-167);
* the flattening of the accumulated responses into rows (lines 171-180);
* the whole-procedure outcome `get_league_entries_as_csv` and the
  command-line dispatch of the `__main__` block (lines 189-211).

The HTTP call `requests.get(url).json()` is abstracted by a stub
`fetch : String → Nat → Resp α` keyed by the request identity that varies
during one run: the current division and the page number (region, queue
and tier are fixed for the whole run; for the special-tier endpoint the
division key is the unused initial value of `current_division`).
A response is a JSON array (divisioned endpoint) or a JSON object
(special-tier endpoint); `Resp.len` models the Python `len` applied to it.
-/

namespace LeagueCsv

/-- Python helper: `xs.index(x)` — index of the first occurrence, comparing
with `==`.  Python raises `ValueError` when `x` is absent; the loop only
ever looks up a value taken from the list itself, so the out-of-range
result `xs.length` returned here is never reached. -/
def pyIndex : List String → String → Nat
  | [], _ => 0
  | y :: ys, x => if y == x then 0 else pyIndex ys x + 1

/-- Python helper: `xs[i]` for a non-negative index.  Python raises
`IndexError` out of range; the default `""` here is never reached at the
call sites (the index is always in range in reachable states). -/
def pyGet (xs : List String) (i : Nat) : String :=
  xs.getD i ""

/-- Python helper: `xs[-1]`, the last element.  Python raises `IndexError`
on an empty list; the call sites only reach it with a non-empty list, so
the `""` returned for `[]` here is never consulted. -/
def pyLast : List String → String
  | [] => ""
  | [x] => x
  | _ :: x :: xs => pyLast (x :: xs)

/-- Python helper: the slice `xs[a:b]` (for `0 ≤ a ≤ b`). -/
def pySlice (xs : List String) (a b : Nat) : List String :=
  (xs.drop a).take (b - a)

/-- Python helper: `x in xs` for a list of strings, comparing with `==`. -/
def pyIn (x : String) : List String → Bool
  | [] => false
  | y :: ys => x == y || pyIn x ys

/-- A single-quote character, used by the Python `str` rendering of a list
of strings. -/
def sq : String := String.singleton (Char.ofNat 39)

/-- Python `str` applied to a list of strings:
`str(["a","b"])` renders as `[` `a` `, ` `b` `]` with each element wrapped
in single quotes. -/
def pyStrList (xs : List String) : String :=
  "[" ++ String.intercalate ", " (xs.map (fun d => sq ++ d ++ sq)) ++ "]"

/-- Source lines 23-24: the 16 region literals.  They are interpolated into
the request URL and printed in the usage message, but never checked. -/
def REGIONS : List String :=
  ["br1", "eun1", "euw1", "jp1", "kr", "la1", "la2", "na1", "oc1", "ph2",
   "ru", "sg2", "th2", "tr1", "tw2", "vn2"]

/-- Source lines 26-30. -/
def QUEUES : List String :=
  ["RANKED_SOLO_5x5", "RANKED_FLEX_SR", "RANKED_FLEX_TT"]

/-- Source lines 31-42. -/
def TIERS : List String :=
  ["IRON", "BRONZE", "SILVER", "GOLD", "PLATINUM", "EMERALD", "DIAMOND",
   "MASTER", "GRANDMASTER", "CHALLENGER"]

/-- Source lines 43-48. -/
def DIVISIONS : List String := ["I", "II", "III", "IV"]

/-- Source lines 51-52:
`tier in TIERS[TIERS.index('MASTER'):TIERS.index('CHALLENGER') + 1]`. -/
def is_special_tier (tier : String) : Bool :=
  pyIn tier (pySlice TIERS (pyIndex TIERS "MASTER") (pyIndex TIERS "CHALLENGER" + 1))

/-- Source lines 59-84: the validation block of `get_league_entries_as_csv`.
`err` starts empty and each failed check appends its message; the division
check is skipped for special tiers (line 67 inlines the same slice
expression as `is_special_tier`).  The `region` argument is accepted but
never inspected by any check.  `invalid_divs` collects, in order, every
supplied division not in `DIVISIONS` (the loop of lines 73-75). -/
def validate (region queue tier : String) (divisions : List String)
    (get_all : String) : String :=
  let _ := region
  let err := ""
  let err := if pyIn queue QUEUES then err else
    err ++ "Invalid queue \"" ++ queue ++ "\". Options: " ++ pyStrList QUEUES ++ "\n"
  let err := if pyIn tier TIERS then err else
    err ++ "Invalid tier \"" ++ tier ++ "\". Options: " ++ pyStrList TIERS ++ "\n"
  let err := if is_special_tier tier then err else
    if divisions.length = 0 then
      err ++ "No divisions specified. Options: " ++ pyStrList DIVISIONS ++ "\n"
    else
      let invalid_divs := divisions.filter (fun d => !(pyIn d DIVISIONS))
      if 0 < invalid_divs.length then
        err ++ "Invalid division" ++ (if 1 < invalid_divs.length then "s" else "") ++
          ": \"" ++ pyStrList invalid_divs ++ "\". Options: " ++ pyStrList DIVISIONS ++ "\n" ++
          "Separate multiple divisions by comma. Example: \"I, IV\" will return \"I\" and \"IV\" only.\n"
      else err
  let err := if get_all = "True" ∨ get_all = "False" then err else
    err ++ "Invalid option for \"get all\"(returns all pages of results if \"True\", or only first if \"False\")." ++
      "Options: \"True\" or \"False\"."
  err

/-- The queue check of line 61-62 in isolation (empty string when the check
passes). -/
def queue_err (queue : String) : String :=
  if pyIn queue QUEUES then "" else
    "Invalid queue \"" ++ queue ++ "\". Options: " ++ pyStrList QUEUES ++ "\n"

/-- The tier check of lines 64-65 in isolation. -/
def tier_err (tier : String) : String :=
  if pyIn tier TIERS then "" else
    "Invalid tier \"" ++ tier ++ "\". Options: " ++ pyStrList TIERS ++ "\n"

/-- The division check of lines 67-81 in isolation. -/
def divisions_err (tier : String) (divisions : List String) : String :=
  if is_special_tier tier then "" else
    if divisions.length = 0 then
      "No divisions specified. Options: " ++ pyStrList DIVISIONS ++ "\n"
    else
      let invalid_divs := divisions.filter (fun d => !(pyIn d DIVISIONS))
      if 0 < invalid_divs.length then
        "Invalid division" ++ (if 1 < invalid_divs.length then "s" else "") ++
          ": \"" ++ pyStrList invalid_divs ++ "\". Options: " ++ pyStrList DIVISIONS ++ "\n" ++
          "Separate multiple divisions by comma. Example: \"I, IV\" will return \"I\" and \"IV\" only.\n"
      else ""

/-- The page-mode check of lines 82-84 in isolation. -/
def get_all_err (get_all : String) : String :=
  if get_all = "True" ∨ get_all = "False" then "" else
    "Invalid option for \"get all\"(returns all pages of results if \"True\", or only first if \"False\")." ++
      "Options: \"True\" or \"False\"."

/-- The list of invalid division labels collected by the loop of source
lines 73-75, in supplied order. -/
def invalid_divs (divisions : List String) : List String :=
  divisions.filter (fun d => !(pyIn d DIVISIONS))

/-- One JSON response as seen by the loop.  The divisioned endpoint
returns a JSON array of entries (`arr`); the special-tier endpoint
returns a JSON object, modelled by the one field the code reads
(`obj entries` for an object with an `entries` key, `emptyObj` for an
empty object `\x7b\x7d`). -/
inductive Resp (α : Type) where
  | arr (items : List α) : Resp α
  | obj (entries : List α) : Resp α
  | emptyObj : Resp α
deriving DecidableEq

/-- Python `len(resp)`: length of a JSON array, number of keys of a JSON
object. -/
def Resp.len {α : Type} : Resp α → Nat
  | .arr items => items.length
  | .obj _ => 1
  | .emptyObj => 0

/-- Elements produced by `for entry in page` (source lines 176-180).  Every
response accumulated on the divisioned path is a JSON array, whose
iteration yields its items.  (Iterating a JSON object would yield its key
strings, which never happens on this path; those shapes map to `[]`.) -/
def Resp.rows {α : Type} : Resp α → List α
  | .arr items => items
  | .obj _ => []
  | .emptyObj => []

/-- Python `resp['entries']` (source line 172): `some` the value of the
`entries` key, `none` when the access raises `KeyError`. -/
def Resp.entriesField {α : Type} : Resp α → Option (List α)
  | .obj entries => some entries
  | .arr _ => none
  | .emptyObj => none

/-- The mutable loop variables of source lines 87-96: `page`,
`current_division` and the accumulated `result` list (`more_results` is
captured by the step outcome below). -/
structure LoopState (α : Type) where
  page : Nat
  current_division : String
  result : List (Resp α)
deriving DecidableEq

/-- Outcome of one iteration of the `while` loop: continue with an updated
state, or leave the loop (by `break` or by setting `more_results = False`;
both merely end the loop). -/
inductive StepOut (α : Type) where
  | cont (s : LoopState α) : StepOut α
  | halt (s : LoopState α) : StepOut α
deriving DecidableEq

/-- One iteration of the `while more_results` loop, source lines 100-143:
fetch the current page of the current division (one HTTP GET), then follow
the branch structure of lines 114-143 exactly. -/
def loopStep {α : Type} (tier : String) (divisions : List String)
    (get_all : String) (fetch : String → Nat → Resp α) (s : LoopState α) :
    StepOut α :=
  let resp := fetch s.current_division s.page
  if 0 < resp.len then
    let result := s.result ++ [resp]
    if is_special_tier tier then
      StepOut.halt { s with result := result }
    else if get_all = "True" then
      StepOut.cont { s with page := s.page + 1, result := result }
    else if get_all = "False" ∧ divisions.length ≤ 1 then
      StepOut.halt { s with result := result }
    else if get_all = "False" ∧ 1 < divisions.length ∧ s.current_division ≠ pyLast divisions then
      StepOut.cont { s with
        current_division := pyGet divisions (pyIndex divisions s.current_division + 1),
        result := result }
    else
      StepOut.halt { s with result := result }
  else
    if is_special_tier tier then
      StepOut.halt s
    else if s.current_division = pyLast divisions then
      StepOut.halt s
    else
      StepOut.cont { s with
        current_division := pyGet divisions (pyIndex divisions s.current_division + 1),
        page := 1 }

/-- The `while more_results` loop run with `fuel` remaining iterations,
threading `n`, the number of fetches already performed.  Returns the final
state paired with the total fetch count, or `none` when the fuel is
exhausted before the loop leaves on its own. -/
def runLoop {α : Type} (tier : String) (divisions : List String)
    (get_all : String) (fetch : String → Nat → Resp α) :
    Nat → LoopState α → Nat → Option (LoopState α × Nat)
  | 0, _, _ => none
  | fuel + 1, s, n =>
    match loopStep tier divisions get_all fetch s with
    | StepOut.halt st => some (st, n + 1)
    | StepOut.cont st => runLoop tier divisions get_all fetch fuel st (n + 1)

/-- The loop-variable initialisation of source lines 87-96: `page = 1`,
`current_division` is the first division when any were supplied and the
empty string otherwise, `result = []`. -/
def initState {α : Type} (divisions : List String) : LoopState α :=
  { page := 1,
    current_division := if 0 < divisions.length then pyGet divisions 0 else "",
    result := [] }

/-- Source lines 171-180: flattening of the accumulated responses into the
ordered row list handed to the writer.  For a special tier the code indexes
`result[0]` with no guard (`none` = `IndexError` on an empty accumulation,
or `KeyError` when the first response has no `entries` key); otherwise every
accumulated page is spliced in fetch order. -/
def flattenResult {α : Type} (tier : String) (result : List (Resp α)) :
    Option (List α) :=
  if is_special_tier tier then
    match result with
    | [] => none
    | r :: _ => r.entriesField
  else
    some ((result.map Resp.rows).flatten)

/-- Source lines 145-153: the divisions token of the filename.  With more
than one division the loop appends each division and then a hyphen unless
the division equals `divisions[-1]`; otherwise the literal token `TIER`. -/
def filename_divisions (divisions : List String) : String :=
  if 1 < divisions.length then
    divisions.foldl
      (fun acc d => acc ++ d ++ (if d ≠ pyLast divisions then "-" else "")) ""
  else "TIER"

/-- Source lines 155-163: the pages token of the filename. -/
def filename_pages (tier get_all : String) : String :=
  if is_special_tier tier then "ALL"
  else if get_all = "True" then "PAGES-ALL"
  else if get_all = "False" then "PAGE-1"
  else "PAGES-UNSPECIFIED"

/-- Source lines 165-167: the full output filename, with the
`datetime.now()` timestamp supplied as the argument `ts`. -/
def make_filename (tier : String) (divisions : List String)
    (get_all ts : String) : String :=
  "league_data_" ++ tier ++ "_" ++ filename_divisions divisions ++ "_" ++
    filename_pages tier get_all ++ "_" ++ ts ++ ".csv"

/-- Observable outcome of one call of `get_league_entries_as_csv`:
the validation-failure print of lines 184-186 (with the case-sensitivity
note appended), a successfully written file with its row list and the
number of fetches performed, an uncaught runtime error (the unguarded
`result[0]` of line 172), or exhaustion of the loop fuel (the source loop
would still be running). -/
inductive RunOutcome (α : Type) where
  | validationError (printed : String) : RunOutcome α
  | wroteFile (filename : String) (rows : List α) (fetches : Nat) : RunOutcome α
  | runtimeError : RunOutcome α
  | outOfFuel : RunOutcome α
deriving DecidableEq

/-- Source lines 56-186: the whole procedure.  Validate; when `err` is the
empty string run the loop from the initial state, flatten, and write the
file named by line 166; otherwise print the error message with the note of
line 185 appended. -/
def get_league_entries_as_csv {α : Type} (region queue tier : String)
    (divisions : List String) (get_all : String)
    (fetch : String → Nat → Resp α) (fuel : Nat) (ts : String) :
    RunOutcome α :=
  let err := validate region queue tier divisions get_all
  if err = "" then
    match runLoop tier divisions get_all fetch fuel (initState divisions) 0 with
    | none => RunOutcome.outOfFuel
    | some (s, n) =>
      match flattenResult tier s.result with
      | none => RunOutcome.runtimeError
      | some rows => RunOutcome.wroteFile (make_filename tier divisions get_all ts) rows n
  else
    RunOutcome.validationError (err ++ "\nNote: parameter arguments are CASE SENSITIVE.")

/-- Outcome of the `__main__` block: either the procedure ran, or the
usage message of lines 199-211 was printed and the process exited. -/
inductive MainOutcome (α : Type) where
  | ran (o : RunOutcome α) : MainOutcome α
  | usage : MainOutcome α
deriving DecidableEq

/-- Source lines 189-211: the command-line dispatch.  `args` is `sys.argv`
(`args[0]` is the script name).  Exactly 4 arguments with a special tier
run the procedure with no divisions and `get_all = "True"`; exactly 6
arguments with a non-special tier run it with `args[4].split(",")` as the
divisions and `args[5]` as `get_all`; anything else prints usage. -/
def main_dispatch {α : Type} (args : List String)
    (fetch : String → Nat → Resp α) (fuel : Nat) (ts : String) :
    MainOutcome α :=
  if args.length = 4 ∧ is_special_tier (pyGet args 3) then
    MainOutcome.ran (get_league_entries_as_csv (pyGet args 1) (pyGet args 2)
      (pyGet args 3) [] "True" fetch fuel ts)
  else if args.length = 6 ∧ ¬ is_special_tier (pyGet args 3) then
    MainOutcome.ran (get_league_entries_as_csv (pyGet args 1) (pyGet args 2)
      (pyGet args 3) ((pyGet args 4).splitOn ",") (pyGet args 5) fetch fuel ts)
  else
    MainOutcome.usage

/-- Modelled from the wording of the spec (section 4.3): the hyphen-joined
list of the divisions in user-given order, used to compare the filename
token the code computes against the token the spec describes. -/
def hyphenJoin : List String → String
  | [] => ""
  | [d] => d
  | d :: rest => d ++ "-" ++ hyphenJoin rest

/-- Termination of the fetch loop from a given state: some fuel suffices
for the loop to leave on its own. -/
def Terminates {α : Type} (tier : String) (divisions : List String)
    (get_all : String) (fetch : String → Nat → Resp α) (s : LoopState α) : Prop :=
  ∃ fuel st c, runLoop tier divisions get_all fetch fuel s 0 = some (st, c)

/-! ### Helper lemmas on strings and the Python list helpers -/

theorem str_empty_append (s : String) : "" ++ s = s := by
  cases s
  rfl

theorem str_append_empty (s : String) : s ++ "" = s := by
  apply String.ext
  simp

theorem str_append_assoc (a b c : String) : a ++ b ++ c = a ++ (b ++ c) := by
  apply String.ext
  simp

theorem pyIn_iff_mem (x : String) (xs : List String) : pyIn x xs = true ↔ x ∈ xs := by
  induction xs with
  | nil => simp [pyIn]
  | cons y ys ih => simp [pyIn, ih, beq_iff_eq]

theorem pyIndex_append_cons (pre : List String) (x : String) (rest : List String)
    (h : x ∉ pre) : pyIndex (pre ++ x :: rest) x = pre.length := by
  induction pre with
  | nil => simp [pyIndex]
  | cons y pre ih =>
    have hyx : (y == x) = false := by
      refine beq_eq_false_iff_ne.mpr ?_
      intro heq
      exact h (by simp [heq])
    have hx : x ∉ pre := fun hm => h (List.mem_cons_of_mem _ hm)
    simp [pyIndex, hyx, ih hx]

theorem pyGet_append_add (pre rest : List String) (k : Nat) :
    pyGet (pre ++ rest) (pre.length + k) = pyGet rest k := by
  induction pre with
  | nil => simp [pyGet]
  | cons y pre ih =>
    show pyGet (y :: (pre ++ rest)) (pre.length + 1 + k) = pyGet rest k
    have h : pre.length + 1 + k = (pre.length + k) + 1 := by omega
    rw [h]
    simpa only [pyGet, List.getD_cons_succ] using ih

theorem pyLast_cons_of_ne_nil (y : String) (l : List String) (h : l ≠ []) :
    pyLast (y :: l) = pyLast l := by
  cases l with
  | nil => exact absurd rfl h
  | cons a t => rfl

theorem pyLast_append_cons (pre : List String) (x : String) (rest : List String) :
    pyLast (pre ++ x :: rest) = pyLast (x :: rest) := by
  induction pre with
  | nil => rfl
  | cons y pre ih =>
    have hne : pre ++ x :: rest ≠ [] := by simp
    calc pyLast ((y :: pre) ++ x :: rest)
        = pyLast (pre ++ x :: rest) := pyLast_cons_of_ne_nil y _ hne
      _ = pyLast (x :: rest) := ih

theorem pyLast_mem (l : List String) (h : l ≠ []) : pyLast l ∈ l := by
  induction l with
  | nil => exact absurd rfl h
  | cons a l ih =>
    cases l with
    | nil => simp [pyLast]
    | cons b t =>
      rw [pyLast_cons_of_ne_nil a (b :: t) (by simp)]
      exact List.mem_cons_of_mem _ (ih (by simp))

theorem pyLast_append_single (pre : List String) (x : String) :
    pyLast (pre ++ [x]) = x := by
  rw [pyLast_append_cons]
  rfl

theorem cur_ne_pyLast (pre : List String) (cur : String) (rest : List String)
    (hnd : (pre ++ cur :: rest).Nodup) (hne : rest ≠ []) :
    cur ≠ pyLast (pre ++ cur :: rest) := by
  rw [pyLast_append_cons, pyLast_cons_of_ne_nil cur rest hne]
  have hcr : (cur :: rest).Nodup := (List.nodup_append.mp hnd).2.1
  have hnot : cur ∉ rest := (List.nodup_cons.mp hcr).1
  intro hc
  exact hnot (hc ▸ pyLast_mem rest hne)

theorem nextDiv_eq (pre : List String) (cur d : String) (rest : List String)
    (hnd : (pre ++ cur :: d :: rest).Nodup) :
    pyGet (pre ++ cur :: d :: rest) (pyIndex (pre ++ cur :: d :: rest) cur + 1) = d := by
  have hdisj := (List.nodup_append.mp hnd).2.2
  have hcur : cur ∉ pre := fun hm => hdisj hm (by simp)
  rw [pyIndex_append_cons pre cur (d :: rest) hcur]
  have := pyGet_append_add pre (cur :: d :: rest) 1
  simpa [pyGet] using this

/-! ### Helper lemmas on the loop runner -/

theorem runLoop_shift {α : Type} (tier : String) (divisions : List String)
    (get_all : String) (fetch : String → Nat → Resp α) :
    ∀ (fuel : Nat) (s : LoopState α) (n : Nat),
      runLoop tier divisions get_all fetch fuel s n =
        (runLoop tier divisions get_all fetch fuel s 0).map (fun p => (p.1, p.2 + n)) := by
  intro fuel
  induction fuel with
  | zero => intro s n; rfl
  | succ fuel ih =>
    intro s n
    cases hstep : loopStep tier divisions get_all fetch s with
    | halt st => simp [runLoop, hstep, Nat.add_comm]
    | cont st =>
      simp only [runLoop, hstep]
      rw [ih st (n + 1), ih st 1]
      cases runLoop tier divisions get_all fetch fuel st 0 with
      | none => rfl
      | some p => simp only [Option.map]; refine congrArg some ?_; refine Prod.ext rfl ?_; omega

theorem runLoop_count_le {α : Type} (tier : String) (divisions : List String)
    (get_all : String) (fetch : String → Nat → Resp α) :
    ∀ (fuel : Nat) (s : LoopState α) (n : Nat) (st : LoopState α) (c : Nat),
      runLoop tier divisions get_all fetch fuel s n = some (st, c) → c ≤ n + fuel := by
  intro fuel
  induction fuel with
  | zero => intro s n st c h; exact absurd h (by simp [runLoop])
  | succ fuel ih =>
    intro s n st c h
    cases hs : loopStep tier divisions get_all fetch s with
    | halt st2 =>
      simp only [runLoop, hs] at h
      simp at h
      omega
    | cont st2 =>
      simp only [runLoop, hs] at h
      have := ih st2 (n + 1) st c h
      omega

theorem terminates_of_halt {α : Type} {tier : String} {divisions : List String}
    {get_all : String} {fetch : String → Nat → Resp α} {s st : LoopState α}
    (h : loopStep tier divisions get_all fetch s = StepOut.halt st) :
    Terminates tier divisions get_all fetch s := by
  exact ⟨1, st, 1, by simp [runLoop, h]⟩

theorem terminates_of_cont {α : Type} {tier : String} {divisions : List String}
    {get_all : String} {fetch : String → Nat → Resp α} {s st : LoopState α}
    (h : loopStep tier divisions get_all fetch s = StepOut.cont st)
    (ht : Terminates tier divisions get_all fetch st) :
    Terminates tier divisions get_all fetch s := by
  obtain ⟨fuel, st2, c, hrun⟩ := ht
  refine ⟨fuel + 1, st2, c + 1, ?_⟩
  simp only [runLoop, h]
  rw [runLoop_shift]
  simp [hrun]

theorem runLoop_halt_eq {α : Type} {tier : String} {divisions : List String}
    {get_all : String} {fetch : String → Nat → Resp α} {s st : LoopState α}
    (h : loopStep tier divisions get_all fetch s = StepOut.halt st)
    (fuel n : Nat) :
    runLoop tier divisions get_all fetch (fuel + 1) s n = some (st, n + 1) := by
  simp [runLoop, h]

theorem runLoop_cont_eq {α : Type} {tier : String} {divisions : List String}
    {get_all : String} {fetch : String → Nat → Resp α} {s st : LoopState α}
    (h : loopStep tier divisions get_all fetch s = StepOut.cont st)
    (fuel n : Nat) :
    runLoop tier divisions get_all fetch (fuel + 1) s n =
      runLoop tier divisions get_all fetch fuel st (n + 1) := by
  simp [runLoop, h]

/-- Behaviour of one loop iteration on an empty response for a non-special
tier (source lines 129-143): terminate when the current division compares
equal to the last supplied one, otherwise move to the next division with
the page counter reset to 1 and the accumulated result untouched. -/
theorem loopStep_empty {α : Type} (tier : String) (divisions : List String)
    (get_all : String) (fetch : String → Nat → Resp α) (s : LoopState α)
    (hsp : is_special_tier tier = false)
    (hlen : (fetch s.current_division s.page).len = 0) :
    loopStep tier divisions get_all fetch s =
      (if s.current_division = pyLast divisions then StepOut.halt s
       else StepOut.cont { s with
         current_division := pyGet divisions (pyIndex divisions s.current_division + 1),
         page := 1 }) := by
  have h0 : ¬ 0 < (fetch s.current_division s.page).len := by omega
  simp [loopStep, h0, hsp]

/-- A special tier halts after exactly one further fetch, whatever the
response, the page mode and the loop state (source lines 114-118 and
130-134). -/
theorem runLoop_special_eq {α : Type} (tier : String) (divisions : List String)
    (get_all : String) (fetch : String → Nat → Resp α)
    (hsp : is_special_tier tier = true) (fuel : Nat) (s : LoopState α) (n : Nat) :
    runLoop tier divisions get_all fetch (fuel + 1) s n
      = some ((if 0 < (fetch s.current_division s.page).len then
                 { s with result := s.result ++ [fetch s.current_division s.page] }
               else s), n + 1) := by
  by_cases hlen : 0 < (fetch s.current_division s.page).len
  · rw [runLoop_halt_eq (show loopStep tier divisions get_all fetch s
        = StepOut.halt { s with result := s.result ++ [fetch s.current_division s.page] }
        by simp [loopStep, hlen, hsp])]
    simp [hlen]
  · rw [runLoop_halt_eq (show loopStep tier divisions get_all fetch s = StepOut.halt s
        by simp [loopStep, hlen, hsp])]
    simp [hlen]

/-- FirstPageOnly scan over a duplicate-free division list when page 1 of
every remaining division is non-empty: exactly one fetch per division, in
list order, always at page 1. -/
theorem runLoop_false_scan {α : Type} (tier : String) (divisions : List String)
    (fetch : String → Nat → Resp α)
    (hsp : is_special_tier tier = false) (hnd : divisions.Nodup) :
    ∀ (rest pre : List String) (cur : String) (res : List (Resp α)) (n : Nat),
      divisions = pre ++ cur :: rest →
      (∀ d ∈ cur :: rest, 0 < (fetch d 1).len) →
      runLoop tier divisions "False" fetch (rest.length + 1)
          { page := 1, current_division := cur, result := res } n
        = some ({ page := 1, current_division := pyLast divisions,
                  result := res ++ (cur :: rest).map (fun d => fetch d 1) },
                n + (rest.length + 1)) := by
  intro rest
  induction rest with
  | nil =>
    intro pre cur res n hdiv hne
    have hcur : 0 < (fetch cur 1).len := hne cur (by simp)
    have hlast : pyLast divisions = cur := by rw [hdiv]; exact pyLast_append_single pre cur
    have hFT : ¬ (("False" : String) = "True") := by decide
    have hstep : loopStep tier divisions "False" fetch
        { page := 1, current_division := cur, result := res }
        = StepOut.halt { page := 1, current_division := cur, result := res ++ [fetch cur 1] } := by
      by_cases hle : divisions.length ≤ 1
      · simp [loopStep, hsp, hcur, hFT, hle]
      · simp [loopStep, hsp, hcur, hFT, hle, hlast]
    rw [runLoop_halt_eq hstep]
    simp [hlast]
  | cons d rest2 ih =>
    intro pre cur res n hdiv hne
    have hndd : (pre ++ cur :: d :: rest2).Nodup := hdiv ▸ hnd
    have hcur : 0 < (fetch cur 1).len := hne cur (by simp)
    have hlast_ne : cur ≠ pyLast divisions := by
      rw [hdiv]; exact cur_ne_pyLast pre cur (d :: rest2) hndd (by simp)
    have hlen2 : 1 < divisions.length := by
      rw [hdiv]; simp only [List.length_append, List.length_cons]; omega
    have hnext : pyGet divisions (pyIndex divisions cur + 1) = d := by
      rw [hdiv]; exact nextDiv_eq pre cur d rest2 hndd
    have hFT : ¬ (("False" : String) = "True") := by decide
    have hle : ¬ divisions.length ≤ 1 := by omega
    have hstep : loopStep tier divisions "False" fetch
        { page := 1, current_division := cur, result := res }
        = StepOut.cont { page := 1, current_division := d, result := res ++ [fetch cur 1] } := by
      simp [loopStep, hsp, hcur, hFT, hle, hlen2, hlast_ne, hnext]
    rw [show (d :: rest2).length + 1 = (rest2.length + 1) + 1 from rfl]
    rw [runLoop_cont_eq hstep]
    rw [ih (pre ++ [cur]) d (res ++ [fetch cur 1]) (n + 1) (by rw [hdiv]; simp)
      (fun x hx => hne x (List.mem_cons_of_mem _ hx))]
    refine congrArg some (Prod.ext ?_ ?_)
    · simp [List.append_assoc]
    · omega

/-- For any page mode other than `AllPages` (`get_all ≠ "True"`), over a
duplicate-free division list the loop halts within one fetch per remaining
division: every iteration either leaves the loop or advances to the next
division. -/
theorem runLoop_notTrue_terminates {α : Type} (tier : String) (divisions : List String)
    (get_all : String) (fetch : String → Nat → Resp α)
    (hsp : is_special_tier tier = false) (hnd : divisions.Nodup) (hga : get_all ≠ "True") :
    ∀ (rest pre : List String) (cur : String) (s : LoopState α) (n : Nat),
      divisions = pre ++ cur :: rest → s.current_division = cur →
      ∃ st c, runLoop tier divisions get_all fetch (rest.length + 1) s n = some (st, c) := by
  intro rest
  induction rest with
  | nil =>
    intro pre cur s n hdiv hcd
    have hlast : s.current_division = pyLast divisions := by
      rw [hcd, hdiv, pyLast_append_single]
    by_cases hlen : 0 < (fetch s.current_division s.page).len
    · have hstep : loopStep tier divisions get_all fetch s
          = StepOut.halt { s with result := s.result ++ [fetch s.current_division s.page] } := by
        by_cases h3 : get_all = "False" ∧ divisions.length ≤ 1
        · simp [loopStep, hsp, hlen, hga, h3]
        · have h4 : ¬ (get_all = "False" ∧ 1 < divisions.length ∧
              s.current_division ≠ pyLast divisions) := by
            rintro ⟨-, -, hne2⟩; exact hne2 hlast
          simp [loopStep, hsp, hlen, hga, h3, h4]
      exact ⟨_, _, runLoop_halt_eq hstep _ n⟩
    · have h0 : (fetch s.current_division s.page).len = 0 := by omega
      have hstep : loopStep tier divisions get_all fetch s = StepOut.halt s := by
        rw [loopStep_empty tier divisions get_all fetch s hsp h0, if_pos hlast]
      exact ⟨_, _, runLoop_halt_eq hstep _ n⟩
  | cons d rest2 ih =>
    intro pre cur s n hdiv hcd
    have hndd : (pre ++ cur :: d :: rest2).Nodup := hdiv ▸ hnd
    have hnext : pyGet divisions (pyIndex divisions s.current_division + 1) = d := by
      rw [hcd, hdiv]; exact nextDiv_eq pre cur d rest2 hndd
    by_cases hlen : 0 < (fetch s.current_division s.page).len
    · by_cases h3 : get_all = "False" ∧ divisions.length ≤ 1
      · have hstep : loopStep tier divisions get_all fetch s
            = StepOut.halt { s with result := s.result ++ [fetch s.current_division s.page] } := by
          simp [loopStep, hsp, hlen, hga, h3]
        exact ⟨_, _, runLoop_halt_eq hstep _ n⟩
      · by_cases h4 : get_all = "False" ∧ 1 < divisions.length ∧
            s.current_division ≠ pyLast divisions
        · have hstep : loopStep tier divisions get_all fetch s
              = StepOut.cont
                  { s with
                    current_division := d,
                    result := s.result ++ [fetch s.current_division s.page] } := by
            simp [loopStep, hsp, hlen, hga, h3, h4, hnext]
          rw [show (d :: rest2).length + 1 = (rest2.length + 1) + 1 from rfl]
          rw [runLoop_cont_eq hstep]
          exact ih (pre ++ [cur]) d _ (n + 1) (by rw [hdiv]; simp) rfl
        · have hstep : loopStep tier divisions get_all fetch s
              = StepOut.halt { s with result := s.result ++ [fetch s.current_division s.page] } := by
            simp [loopStep, hsp, hlen, hga, h3, h4]
          exact ⟨_, _, runLoop_halt_eq hstep _ n⟩
    · have h0 : (fetch s.current_division s.page).len = 0 := by omega
      by_cases hl : s.current_division = pyLast divisions
      · have hstep : loopStep tier divisions get_all fetch s = StepOut.halt s := by
          rw [loopStep_empty tier divisions get_all fetch s hsp h0, if_pos hl]
        exact ⟨_, _, runLoop_halt_eq hstep _ n⟩
      · have hstep : loopStep tier divisions get_all fetch s
            = StepOut.cont { s with current_division := d, page := 1 } := by
          rw [loopStep_empty tier divisions get_all fetch s hsp h0, if_neg hl, hnext]
        rw [show (d :: rest2).length + 1 = (rest2.length + 1) + 1 from rfl]
        rw [runLoop_cont_eq hstep]
        exact ih (pre ++ [cur]) d _ (n + 1) (by rw [hdiv]; simp) rfl

/-- AllPages scan of a single division: when some later page of the current
division is empty, the loop terminates from here provided it terminates
from the start of the next division (or the current one is the last). -/
theorem terminates_true_scan {α : Type} (tier : String) (divisions : List String)
    (fetch : String → Nat → Resp α) (hsp : is_special_tier tier = false) :
    ∀ (k : Nat) (cur : String) (page : Nat) (res : List (Resp α)),
      (fetch cur (page + k)).len = 0 →
      (cur ≠ pyLast divisions →
        ∀ res2 : List (Resp α),
          Terminates tier divisions "True" fetch
            { page := 1,
              current_division := pyGet divisions (pyIndex divisions cur + 1),
              result := res2 }) →
      Terminates tier divisions "True" fetch
        { page := page, current_division := cur, result := res } := by
  intro k
  induction k with
  | zero =>
    intro cur page res h0 hcont
    rw [Nat.add_zero] at h0
    by_cases hl : cur = pyLast divisions
    · have hstep : loopStep tier divisions "True" fetch
          { page := page, current_division := cur, result := res }
          = StepOut.halt { page := page, current_division := cur, result := res } := by
        rw [loopStep_empty tier divisions "True" fetch _ hsp h0]
        simp [hl]
      exact terminates_of_halt hstep
    · refine terminates_of_cont ?_ (hcont hl res)
      rw [loopStep_empty tier divisions "True" fetch _ hsp h0]
      simp [hl]
  | succ k ihk =>
    intro cur page res h0 hcont
    by_cases hlen : 0 < (fetch cur page).len
    · have hstep : loopStep tier divisions "True" fetch
          { page := page, current_division := cur, result := res }
          = StepOut.cont
              { page := page + 1,
                current_division := cur,
                result := res ++ [fetch cur page] } := by
        simp [loopStep, hsp, hlen]
      refine terminates_of_cont hstep (ihk cur (page + 1) (res ++ [fetch cur page]) ?_ hcont)
      rw [show page + 1 + k = page + (k + 1) by omega]
      exact h0
    · have h0' : (fetch cur page).len = 0 := by omega
      by_cases hl : cur = pyLast divisions
      · have hstep : loopStep tier divisions "True" fetch
            { page := page, current_division := cur, result := res }
            = StepOut.halt { page := page, current_division := cur, result := res } := by
          rw [loopStep_empty tier divisions "True" fetch _ hsp h0']
          simp [hl]
        exact terminates_of_halt hstep
      · refine terminates_of_cont ?_ (hcont hl res)
        rw [loopStep_empty tier divisions "True" fetch _ hsp h0']
        simp [hl]

/-- AllPages termination: over a duplicate-free division list the loop
terminates from the start of any division whenever every remaining
division eventually serves an empty page. -/
theorem terminates_true_all {α : Type} (tier : String) (divisions : List String)
    (fetch : String → Nat → Resp α)
    (hsp : is_special_tier tier = false) (hnd : divisions.Nodup) :
    ∀ (rest pre : List String) (cur : String),
      divisions = pre ++ cur :: rest →
      (∀ d ∈ cur :: rest, ∃ k, (fetch d (1 + k)).len = 0) →
      ∀ res : List (Resp α),
        Terminates tier divisions "True" fetch
          { page := 1, current_division := cur, result := res } := by
  intro rest
  induction rest with
  | nil =>
    intro pre cur hdiv hev res
    obtain ⟨k, hk⟩ := hev cur (by simp)
    refine terminates_true_scan tier divisions fetch hsp k cur 1 res hk ?_
    intro hne
    exact False.elim
      (hne (show cur = pyLast divisions by rw [hdiv, pyLast_append_single]))
  | cons d rest2 ih =>
    intro pre cur hdiv hev res
    obtain ⟨k, hk⟩ := hev cur (by simp)
    have hndd : (pre ++ cur :: d :: rest2).Nodup := hdiv ▸ hnd
    have hnext : pyGet divisions (pyIndex divisions cur + 1) = d := by
      rw [hdiv]; exact nextDiv_eq pre cur d rest2 hndd
    refine terminates_true_scan tier divisions fetch hsp k cur 1 res hk ?_
    intro _ res2
    rw [hnext]
    exact ih (pre ++ [cur]) d (by rw [hdiv]; simp)
      (fun x hx => hev x (List.mem_cons_of_mem _ hx)) res2

/-! ### Helper lemmas on validation and the filename tokens -/

/-- The sequential `err +=` accumulation of source lines 59-84 equals the
concatenation of the four independent checks: a failed check contributes
its message whether or not an earlier check already failed. -/
theorem bool_false_eq_true_iff : (false = true) ↔ False := by decide

theorem validate_eq (region queue tier : String) (divisions : List String)
    (get_all : String) :
    validate region queue tier divisions get_all =
      queue_err queue ++ tier_err tier ++ divisions_err tier divisions ++
        get_all_err get_all := by
  by_cases hq : pyIn queue QUEUES = true <;>
  by_cases ht : pyIn tier TIERS = true <;>
  by_cases hs : is_special_tier tier = true <;>
  by_cases hg : get_all = "True" ∨ get_all = "False" <;>
  by_cases hd0 : divisions.length = 0 <;>
  by_cases hdi : 0 < (divisions.filter (fun d => !(pyIn d DIVISIONS))).length <;>
  simp only [validate, queue_err, tier_err, divisions_err, get_all_err, hq, ht, hs, hg,
    hd0, hdi, eq_self_iff_true, bool_false_eq_true_iff, ite_true, ite_false, if_true,
    if_false, str_append_empty, str_empty_append, str_append_assoc]

theorem exists_append_single (l : List String) (h : l ≠ []) :
    ∃ ys x, l = ys ++ [x] := by
  induction l with
  | nil => exact absurd rfl h
  | cons a t ih =>
    cases t with
    | nil => exact ⟨[], a, rfl⟩
    | cons b t2 =>
      obtain ⟨ys, x, hx⟩ := ih (by simp)
      exact ⟨a :: ys, x, by rw [List.cons_append, ← hx]⟩

theorem hyphenJoin_cons_of_ne_nil (y : String) (l : List String) (h : l ≠ []) :
    hyphenJoin (y :: l) = y ++ "-" ++ hyphenJoin l := by
  cases l with
  | nil => exact absurd rfl h
  | cons z t => rfl

theorem foldl_hyphen (x : String) :
    ∀ (ys : List String) (init : String), (∀ d ∈ ys, d ≠ x) →
      List.foldl (fun acc d => acc ++ d ++ (if d ≠ x then "-" else "")) init (ys ++ [x])
        = init ++ hyphenJoin (ys ++ [x]) := by
  intro ys
  induction ys with
  | nil =>
    intro init _
    simp [hyphenJoin, str_append_empty]
  | cons y ys ih =>
    intro init hne
    have hy : y ≠ x := hne y (by simp)
    have hys : ∀ d ∈ ys, d ≠ x := fun d hd => hne d (List.mem_cons_of_mem _ hd)
    calc List.foldl (fun acc d => acc ++ d ++ (if d ≠ x then "-" else "")) init
          ((y :: ys) ++ [x])
        = List.foldl (fun acc d => acc ++ d ++ (if d ≠ x then "-" else ""))
            (init ++ y ++ "-") (ys ++ [x]) := by
          simp [hy]
      _ = (init ++ y ++ "-") ++ hyphenJoin (ys ++ [x]) := ih (init ++ y ++ "-") hys
      _ = init ++ hyphenJoin ((y :: ys) ++ [x]) := by
          rw [List.cons_append, hyphenJoin_cons_of_ne_nil y (ys ++ [x]) (by simp)]
          simp [str_append_assoc]

/-- When no earlier division label equals the last one, the filename token
of source lines 145-151 is the hyphen-joined division list. -/
theorem filename_divisions_eq_hyphenJoin (divisions : List String)
    (hlen : 1 < divisions.length)
    (h : ∀ d ∈ divisions.dropLast, d ≠ pyLast divisions) :
    filename_divisions divisions = hyphenJoin divisions := by
  have hne : divisions ≠ [] := by
    intro h0; rw [h0] at hlen; simp at hlen
  obtain ⟨ys, x, hx⟩ := exists_append_single divisions hne
  have hlast : pyLast divisions = x := by rw [hx]; exact pyLast_append_single ys x
  have hdrop : divisions.dropLast = ys := by rw [hx]; simp
  have hys : ∀ d ∈ ys, d ≠ x := by
    intro d hd
    have := h d (by rw [hdrop]; exact hd)
    rwa [hlast] at this
  rw [filename_divisions, if_pos hlen, hlast]
  conv_lhs => rw [hx]
  conv_rhs => rw [hx]
  rw [foldl_hyphen x ys "" hys, str_empty_append]

/-- Validation success never produces the validation-error outcome: when
the accumulated error string is empty the run takes the collection path,
whose results are a written file, a runtime error or fuel exhaustion. -/
theorem run_ne_validationError {α : Type} (region queue tier : String)
    (divisions : List String) (get_all : String)
    (fetch : String → Nat → Resp α) (fuel : Nat) (ts : String)
    (h : validate region queue tier divisions get_all = "") (msg : String) :
    get_league_entries_as_csv region queue tier divisions get_all fetch fuel ts
      ≠ RunOutcome.validationError msg := by
  rcases hrun : runLoop tier divisions get_all fetch fuel (initState divisions) 0 with
    _ | ⟨s, n⟩
  · simp [get_league_entries_as_csv, h, hrun]
  · rcases hfl : flattenResult tier s.result with _ | rows
    · simp [get_league_entries_as_csv, h, hrun, hfl]
    · simp [get_league_entries_as_csv, h, hrun, hfl]

/-! ### The claims -/

/-- Claim C1: for every tier in the special set {MASTER, GRANDMASTER,
CHALLENGER}, validation succeeds with an empty divisions list (given valid
remaining filters), and supplying any division together with such a tier is
rejected: divisions can only be supplied through the 6-argument command
line, and for a special tier that form prints the usage error, so
collection never runs. -/
theorem special_tier_empty_divisions (tier : String)
    (hsp : tier ∈ ["MASTER", "GRANDMASTER", "CHALLENGER"]) :
    (∀ region queue get_all : String, queue ∈ QUEUES →
      (get_all = "True" ∨ get_all = "False") →
      validate region queue tier [] get_all = "")
    ∧ (∀ (α : Type) (args : List String) (fetch : String → Nat → Resp α)
        (fuel : Nat) (ts : String),
        args.length = 6 → pyGet args 3 = tier →
        main_dispatch args fetch fuel ts = MainOutcome.usage) := by
  obtain ⟨h1, h2⟩ : is_special_tier tier = true ∧ pyIn tier TIERS = true := by
    simp only [List.mem_cons, List.not_mem_nil, or_false] at hsp
    rcases hsp with rfl | rfl | rfl <;> exact ⟨by decide, by decide⟩
  constructor
  · intro region queue get_all hq hg
    have hq' : pyIn queue QUEUES = true := (pyIn_iff_mem queue QUEUES).mpr hq
    rw [validate_eq, queue_err, if_pos hq', tier_err, if_pos h2, divisions_err,
      if_pos h1, get_all_err, if_pos hg]
    rfl
  · intro α args fetch fuel ts hlen h3
    have hne4 : ¬ (args.length = 4 ∧ is_special_tier (pyGet args 3) = true) := by
      rintro ⟨h4, -⟩
      omega
    have hne6 : ¬ (args.length = 6 ∧ ¬ is_special_tier (pyGet args 3) = true) := by
      rintro ⟨-, hns⟩
      rw [h3] at hns
      exact hns h1
    simp only [main_dispatch, if_neg hne4, if_neg hne6]

theorem special_tier_empty_divisions_witness :
    validate "na1" "RANKED_SOLO_5x5" "MASTER" [] "True" = ""
    ∧ main_dispatch
        ["league_entries.py", "na1", "RANKED_SOLO_5x5", "MASTER", "I", "True"]
        (fun _ _ => Resp.arr ([] : List Nat)) 5 "TS" = MainOutcome.usage := by
  have h := special_tier_empty_divisions "MASTER" (by decide)
  exact ⟨h.1 "na1" "RANKED_SOLO_5x5" "True" (by decide) (Or.inl rfl),
    h.2 Nat _ _ 5 "TS" (by decide) (by decide)⟩

/-- Claim C2 counterexample: the region filter is never checked.  With a
region outside the 16 known literals and every other filter valid, the
accumulated error is empty and the run proceeds to write a file — refuting
the claim that validation reports an error for an unknown region. -/
theorem region_unknown_accepted_cex :
    ("NOT_A_REGION" ∉ REGIONS)
    ∧ validate "NOT_A_REGION" "RANKED_SOLO_5x5" "GOLD" ["I"] "False" = ""
    ∧ get_league_entries_as_csv "NOT_A_REGION" "RANKED_SOLO_5x5" "GOLD"
        ["I"] "False" (fun _ _ => Resp.arr ([0] : List Nat)) 2 "TS"
        = RunOutcome.wroteFile "league_data_GOLD_TIER_PAGE-1_TS.csv" [0] 1 :=
  ⟨by decide, rfl, rfl⟩

/-- Claim C2 amended: region is not among the validated filters.  The
validation result is independent of the region argument (there is no
region check at all: `REGIONS` is only interpolated into the URL and the
usage message), and with the other filters valid collection proceeds for
any region string whatsoever. -/
theorem region_never_validated :
    (∀ region region2 queue tier : String, ∀ divisions : List String,
      ∀ get_all : String,
        validate region queue tier divisions get_all
          = validate region2 queue tier divisions get_all)
    ∧ REGIONS.length = 16
    ∧ (∀ region ts : String,
        get_league_entries_as_csv region "RANKED_SOLO_5x5" "GOLD" ["I"]
          "False" (fun _ _ => Resp.arr ([0] : List Nat)) 2 ts
          = RunOutcome.wroteFile (make_filename "GOLD" ["I"] "False" ts) [0] 1) :=
  ⟨fun _ _ _ _ _ _ => rfl, rfl, fun _ _ => rfl⟩

/-- Claim C3: validation accumulates the results of all applicable checks
(the error string equals the concatenation of the four independent checks,
so a failed check reports whether or not an earlier one failed), collection
proceeds exactly when the accumulated error is empty, and for the
non-special tier GOLD with divisions ["I", "V", "X"] the reported error
carries the rendering of the full invalid list ["V", "X"]: both bad labels
are named, not just the first. -/
theorem validation_accumulates_errors :
    (∀ region queue tier : String, ∀ divisions : List String, ∀ get_all : String,
        validate region queue tier divisions get_all =
          queue_err queue ++ tier_err tier ++ divisions_err tier divisions ++
            get_all_err get_all)
    ∧ (∀ (α : Type) (region queue tier : String) (divisions : List String)
        (get_all : String) (fetch : String → Nat → Resp α) (fuel : Nat) (ts : String),
        (∃ msg, get_league_entries_as_csv region queue tier divisions get_all fetch fuel ts
            = RunOutcome.validationError msg)
          ↔ validate region queue tier divisions get_all ≠ "")
    ∧ invalid_divs ["I", "V", "X"] = ["V", "X"]
    ∧ validate "na1" "RANKED_SOLO_5x5" "GOLD" ["I", "V", "X"] "True"
        = "Invalid divisions: \"" ++ pyStrList ["V", "X"] ++ "\". Options: "
            ++ pyStrList DIVISIONS
            ++ "\nSeparate multiple divisions by comma. Example: \"I, IV\" will return \"I\" and \"IV\" only.\n" := by
  refine ⟨validate_eq, ?_, rfl, rfl⟩
  intro α region queue tier divisions get_all fetch fuel ts
  by_cases h : validate region queue tier divisions get_all = ""
  · constructor
    · rintro ⟨msg, hmsg⟩
      exact absurd hmsg
        (run_ne_validationError region queue tier divisions get_all fetch fuel ts h msg)
    · intro hcon
      exact absurd h hcon
  · constructor
    · intro _
      exact h
    · intro _
      refine ⟨validate region queue tier divisions get_all
        ++ "\nNote: parameter arguments are CASE SENSITIVE.", ?_⟩
      simp only [get_league_entries_as_csv]
      rw [if_neg h]

/-- Claim C4 counterexample: with the duplicate division list ["I", "I"]
(two supplied divisions, each a valid label, accepted by validation) and a
stub returning one record per fetch, FirstPageOnly performs exactly one
fetch, not one per division: the advance test compares the current
division by value with the last list entry, which already matches after
the first fetch. -/
theorem first_page_duplicate_divisions_cex :
    validate "na1" "RANKED_SOLO_5x5" "GOLD" ["I", "I"] "False" = ""
    ∧ get_league_entries_as_csv "na1" "RANKED_SOLO_5x5" "GOLD" ["I", "I"]
        "False" (fun _ _ => Resp.arr ([7] : List Nat)) 5 "TS"
        = RunOutcome.wroteFile "league_data_GOLD_II_PAGE-1_TS.csv" [7] 1
    ∧ (1 : Nat) ≠ (["I", "I"] : List String).length :=
  ⟨rfl, rfl, by decide⟩

/-- Claim C4 amended (for duplicate-free division lists): in FirstPageOnly
mode over a non-special tier, when page 1 of every division is non-empty
the loop performs exactly one fetch per division, in user-given order and
never beyond page 1 — the final accumulation is exactly the page-1
response of each division in list order, the fetch count equals the number
of divisions, and with exactly one division exactly one fetch happens.
Concretely, divisions ["I", "II", "III"] with a one-record stub yield 3
rows after exactly 3 fetches. -/
theorem first_page_one_fetch_per_division (α : Type) (tier : String)
    (divisions : List String) (fetch : String → Nat → Resp α)
    (hsp : is_special_tier tier = false) (hnd : divisions.Nodup)
    (hne : divisions ≠ [])
    (hpages : ∀ d ∈ divisions, 0 < (fetch d 1).len) :
    runLoop tier divisions "False" fetch divisions.length (initState divisions) 0
      = some ({ page := 1, current_division := pyLast divisions,
                result := divisions.map (fun d => fetch d 1) }, divisions.length)
    ∧ get_league_entries_as_csv "na1" "RANKED_SOLO_5x5" "GOLD"
        ["I", "II", "III"] "False"
        (fun d _ => Resp.arr [pyIndex ["I", "II", "III"] d]) 3 "TS"
        = RunOutcome.wroteFile "league_data_GOLD_I-II-III_PAGE-1_TS.csv" [0, 1, 2] 3 := by
  constructor
  · obtain ⟨cur, rest, hd⟩ : ∃ cur rest, divisions = cur :: rest := by
      cases divisions with
      | nil => exact absurd rfl hne
      | cons a t => exact ⟨a, t, rfl⟩
    have hinit : (initState divisions : LoopState α)
        = { page := 1, current_division := cur, result := [] } := by
      rw [hd]
      simp [initState, pyGet]
    have hlen : divisions.length = rest.length + 1 := by rw [hd]; rfl
    rw [hlen, hinit,
      runLoop_false_scan tier divisions fetch hsp hnd rest [] cur [] 0
        (by rw [hd]; rfl) (hd ▸ hpages)]
    simp [hd]
  · rfl

theorem first_page_one_fetch_per_division_witness :
    runLoop "GOLD" ["I", "II", "III"] "False"
        (fun d _ => Resp.arr [pyIndex ["I", "II", "III"] d])
        (["I", "II", "III"] : List String).length (initState ["I", "II", "III"]) 0
      = some ({ page := 1, current_division := pyLast ["I", "II", "III"],
                result := (["I", "II", "III"] : List String).map
                  (fun d => Resp.arr [pyIndex ["I", "II", "III"] d]) },
              (["I", "II", "III"] : List String).length) :=
  (first_page_one_fetch_per_division Nat "GOLD" ["I", "II", "III"]
    (fun d _ => Resp.arr [pyIndex ["I", "II", "III"] d]) rfl (by decide) (by decide)
    (by decide)).1

/-- Claim C5: on an empty response for a non-special tier the loop halts
when the current division equals the last supplied one, and otherwise
advances to the next division with the page counter reset to 1 and the
accumulated result untouched — no error is raised, so an empty first
response is treated exactly like an exhausted division.  Concretely, one
division with AllPages over a stub whose pages 1 and 2 are non-empty and
page 3 empty takes exactly 3 fetches and keeps the records of pages 1 and
2 only. -/
theorem empty_response_division_advance :
    (∀ (α : Type) (tier : String) (divisions : List String) (get_all : String)
        (fetch : String → Nat → Resp α) (s : LoopState α),
        is_special_tier tier = false →
        (fetch s.current_division s.page).len = 0 →
        loopStep tier divisions get_all fetch s =
          (if s.current_division = pyLast divisions then StepOut.halt s
           else StepOut.cont { s with
             current_division := pyGet divisions (pyIndex divisions s.current_division + 1),
             page := 1 }))
    ∧ get_league_entries_as_csv "na1" "RANKED_SOLO_5x5" "GOLD" ["I"] "True"
        (fun _ p => if p ≤ 2 then Resp.arr [p] else Resp.arr ([] : List Nat)) 5 "TS"
        = RunOutcome.wroteFile "league_data_GOLD_TIER_PAGES-ALL_TS.csv" [1, 2] 3 :=
  ⟨fun α tier divisions get_all fetch s hsp hlen =>
      loopStep_empty tier divisions get_all fetch s hsp hlen,
   rfl⟩

theorem empty_response_division_advance_witness :
    loopStep "GOLD" ["I", "II"] "True" (fun _ _ => Resp.arr ([] : List Nat))
        { page := 1, current_division := "I", result := [] }
      = (if ("I" : String) = pyLast ["I", "II"]
         then StepOut.halt
            { page := 1, current_division := "I", result := ([] : List (Resp Nat)) }
         else StepOut.cont
            { page := 1,
              current_division := pyGet ["I", "II"] (pyIndex ["I", "II"] "I" + 1),
              result := [] }) :=
  empty_response_division_advance.1 Nat "GOLD" ["I", "II"] "True"
    (fun _ _ => Resp.arr []) { page := 1, current_division := "I", result := [] } rfl rfl

/-- Claim C6: for a special tier the loop halts unconditionally after a
single further fetch, whatever the response and page mode (it never checks
for more pages), and the entries list embedded in the one returned record
is flattened directly into the result set: a stub returning an object with
entries [a, b, c] gives rows [a, b, c] with fetch count 1. -/
theorem special_tier_one_fetch_flatten :
    (∀ (α : Type) (tier : String) (divisions : List String) (get_all : String)
        (fetch : String → Nat → Resp α) (fuel : Nat) (s : LoopState α) (n : Nat),
        is_special_tier tier = true →
        ∃ st, runLoop tier divisions get_all fetch (fuel + 1) s n = some (st, n + 1))
    ∧ (∀ (α : Type) (a b c : α) (queue ts : String), queue ∈ QUEUES →
        get_league_entries_as_csv "na1" queue "CHALLENGER" [] "True"
          (fun _ _ => Resp.obj [a, b, c]) 1 ts
          = RunOutcome.wroteFile (make_filename "CHALLENGER" [] "True" ts) [a, b, c] 1) := by
  constructor
  · intro α tier divisions get_all fetch fuel s n hsp
    exact ⟨_, runLoop_special_eq tier divisions get_all fetch hsp fuel s n⟩
  · intro α a b c queue ts hq
    have hq' : pyIn queue QUEUES = true := (pyIn_iff_mem queue QUEUES).mpr hq
    have hv : validate "na1" queue "CHALLENGER" [] "True" = "" := by
      rw [validate_eq, queue_err, if_pos hq']
      rfl
    simp only [get_league_entries_as_csv]
    rw [hv]
    rfl

theorem special_tier_one_fetch_flatten_witness :
    (∃ st, runLoop "CHALLENGER" ([] : List String) "True"
        (fun _ _ => Resp.obj ([10, 20, 30] : List Nat)) (0 + 1)
        (initState []) 0 = some (st, 0 + 1))
    ∧ get_league_entries_as_csv "na1" "RANKED_SOLO_5x5" "CHALLENGER" [] "True"
        (fun _ _ => Resp.obj ([10, 20, 30] : List Nat)) 1 "TS"
        = RunOutcome.wroteFile (make_filename "CHALLENGER" [] "True" "TS") [10, 20, 30] 1 :=
  ⟨special_tier_one_fetch_flatten.1 Nat "CHALLENGER" [] "True"
      (fun _ _ => Resp.obj [10, 20, 30]) 0 (initState []) 0 rfl,
   special_tier_one_fetch_flatten.2 Nat 10 20 30 "RANKED_SOLO_5x5" "TS" (by decide)⟩

/-- Claim C7 counterexample: with the duplicate list ["II", "II"] the code
omits the hyphen after the first entry (it compares each division by value
with the last one), producing "IIII" instead of the hyphen-joined
"II-II" — so the divisions token is not always the hyphen-joined list. -/
theorem filename_divisions_duplicate_cex :
    filename_divisions ["II", "II"] = "IIII"
    ∧ hyphenJoin ["II", "II"] = "II-II"
    ∧ filename_divisions ["II", "II"] ≠ hyphenJoin ["II", "II"] :=
  ⟨rfl, rfl, by decide⟩

/-- Claim C7 amended: the divisions token is the literal TIER whenever at
most one division applies (a single division, or the special-tier case
with its empty list); with more than one division it is the hyphen-joined
list in user-given order provided no division before the last equals the
last one (with such a duplicate the hyphen after it is omitted).  The
pages token is ALL for special tiers, PAGES-ALL for AllPages and PAGE-1
for FirstPageOnly, and the concrete example behaves as claimed. -/
theorem filename_tokens :
    (∀ divisions : List String, divisions.length ≤ 1 →
      filename_divisions divisions = "TIER")
    ∧ (∀ divisions : List String, 1 < divisions.length →
        (∀ d ∈ divisions.dropLast, d ≠ pyLast divisions) →
        filename_divisions divisions = hyphenJoin divisions)
    ∧ (∀ tier get_all : String, is_special_tier tier = true →
        filename_pages tier get_all = "ALL")
    ∧ (∀ tier : String, is_special_tier tier = false →
        filename_pages tier "True" = "PAGES-ALL")
    ∧ (∀ tier : String, is_special_tier tier = false →
        filename_pages tier "False" = "PAGE-1")
    ∧ filename_divisions ["II", "IV"] = "II-IV"
    ∧ filename_pages "GOLD" "True" = "PAGES-ALL" := by
  have hFT : ¬ (("False" : String) = "True") := by decide
  refine ⟨?_, filename_divisions_eq_hyphenJoin, ?_, ?_, ?_, rfl, rfl⟩
  · intro divisions hlen
    have h1 : ¬ 1 < divisions.length := by omega
    simp [filename_divisions, h1]
  · intro tier get_all hsp
    simp [filename_pages, hsp]
  · intro tier hsp
    simp [filename_pages, hsp]
  · intro tier hsp
    simp [filename_pages, hsp, hFT]

theorem filename_tokens_witness :
    filename_divisions ([] : List String) = "TIER"
    ∧ filename_divisions ["II", "IV"] = hyphenJoin ["II", "IV"]
    ∧ filename_pages "MASTER" "True" = "ALL"
    ∧ filename_pages "GOLD" "True" = "PAGES-ALL"
    ∧ filename_pages "GOLD" "False" = "PAGE-1" :=
  ⟨filename_tokens.1 [] (by decide),
   filename_tokens.2.1 ["II", "IV"] (by decide) (by decide),
   filename_tokens.2.2.1 "MASTER" "True" rfl,
   filename_tokens.2.2.2.1 "GOLD" rfl,
   filename_tokens.2.2.2.2.1 "GOLD" rfl⟩

/-- Claim C8: whenever validation fails (the accumulated error string is
non-empty), the procedure prints exactly the error message with the
case-sensitivity note appended and nothing else happens: the outcome does
not depend on the fetch stub or the fuel (no fetch is performed), it is
not a written file and not a runtime error — the run falls through to a
normal exit. -/
theorem validation_error_prints_no_fetch (α : Type) (region queue tier : String)
    (divisions : List String) (get_all : String)
    (h : validate region queue tier divisions get_all ≠ "") :
    ∀ (fetch : String → Nat → Resp α) (fuel : Nat) (ts : String),
      get_league_entries_as_csv region queue tier divisions get_all fetch fuel ts
        = RunOutcome.validationError
            (validate region queue tier divisions get_all
              ++ "\nNote: parameter arguments are CASE SENSITIVE.") := by
  intro fetch fuel ts
  simp only [get_league_entries_as_csv]
  rw [if_neg h]

theorem validation_error_prints_no_fetch_witness :
    get_league_entries_as_csv "na1" "BAD_QUEUE" "GOLD" ["I"] "True"
        (fun _ _ => Resp.arr ([0] : List Nat)) 3 "TS"
      = RunOutcome.validationError
          (validate "na1" "BAD_QUEUE" "GOLD" ["I"] "True"
            ++ "\nNote: parameter arguments are CASE SENSITIVE.") :=
  validation_error_prints_no_fetch Nat "na1" "BAD_QUEUE" "GOLD" ["I"] "True"
    (by decide) (fun _ _ => Resp.arr [0]) 3 "TS"

/-- Claim C9: over a non-empty duplicate-free division list for a
non-special tier, the loop terminates for any page mode whenever every
division eventually serves an empty page, and in FirstPageOnly mode it
terminates within one fetch per division even when no response is ever
empty (fuel equal to the number of divisions suffices and the fetch count
is bounded by it). -/
theorem loop_termination (α : Type) (tier : String) (divisions : List String)
    (fetch : String → Nat → Resp α)
    (hsp : is_special_tier tier = false) (hne : divisions ≠ [])
    (hnd : divisions.Nodup) :
    ((∀ d ∈ divisions, ∃ k, (fetch d (1 + k)).len = 0) →
      ∀ get_all : String,
        ∃ fuel st c,
          runLoop tier divisions get_all fetch fuel (initState divisions) 0
            = some (st, c))
    ∧ (∃ st c,
        runLoop tier divisions "False" fetch divisions.length (initState divisions) 0
            = some (st, c)
          ∧ c ≤ divisions.length) := by
  obtain ⟨cur, rest, hd⟩ : ∃ cur rest, divisions = cur :: rest := by
    cases divisions with
    | nil => exact absurd rfl hne
    | cons a t => exact ⟨a, t, rfl⟩
  have hinit : (initState divisions : LoopState α)
      = { page := 1, current_division := cur, result := [] } := by
    rw [hd]
    simp [initState, pyGet]
  have hdl : divisions.length = rest.length + 1 := by rw [hd]; rfl
  constructor
  · intro hev get_all
    by_cases hga : get_all = "True"
    · subst hga
      obtain ⟨fuel, st, c, hr⟩ :=
        terminates_true_all tier divisions fetch hsp hnd rest [] cur
          (by rw [hd]; rfl) (hd ▸ hev) []
      exact ⟨fuel, st, c, by rw [hinit]; exact hr⟩
    · obtain ⟨st, c, hr⟩ :=
        runLoop_notTrue_terminates tier divisions get_all fetch hsp hnd hga
          rest [] cur (initState divisions) 0 (by rw [hd]; rfl) (by rw [hinit])
      exact ⟨rest.length + 1, st, c, hr⟩
  · have hga : ("False" : String) ≠ "True" := by decide
    obtain ⟨st, c, hr⟩ :=
      runLoop_notTrue_terminates tier divisions "False" fetch hsp hnd hga
        rest [] cur (initState divisions) 0 (by rw [hd]; rfl) (by rw [hinit])
    have hc : c ≤ 0 + (rest.length + 1) :=
      runLoop_count_le tier divisions "False" fetch (rest.length + 1)
        (initState divisions) 0 st c hr
    refine ⟨st, c, ?_, ?_⟩
    · rw [hdl]
      exact hr
    · omega

theorem loop_termination_witness :
    (∃ fuel st c,
      runLoop "GOLD" ["I"] "True" (fun _ _ => Resp.arr ([] : List Nat)) fuel
        (initState ["I"]) 0 = some (st, c))
    ∧ (∃ st c,
        runLoop "GOLD" ["I"] "False" (fun _ _ => Resp.arr ([] : List Nat))
          (["I"] : List String).length (initState ["I"]) 0 = some (st, c)
        ∧ c ≤ (["I"] : List String).length) := by
  have h := loop_termination Nat "GOLD" ["I"] (fun _ _ => Resp.arr []) rfl
    (by decide) (by decide)
  exact ⟨h.1 (fun d _ => ⟨0, rfl⟩) "True", h.2⟩

/-- Claim C10: for a special tier with valid filters, when the single
fetch returns an empty response the loop ends with an empty accumulation
and the unguarded access of the first accumulated response then raises an
uncaught indexing error before any output file is written: the outcome is
the runtime-error abort, not a written file. -/
theorem special_tier_empty_crash (α : Type) (region queue tier get_all ts : String)
    (fetch : String → Nat → Resp α) (fuel : Nat)
    (hsp : is_special_tier tier = true)
    (hv : validate region queue tier [] get_all = "")
    (hempty : (fetch "" 1).len = 0) :
    get_league_entries_as_csv region queue tier [] get_all fetch (fuel + 1) ts
      = RunOutcome.runtimeError := by
  have hrun := runLoop_special_eq tier [] get_all fetch hsp fuel (initState []) 0
  have h0 : ¬ 0 < (fetch (initState ([] : List String) : LoopState α).current_division
      (initState ([] : List String) : LoopState α).page).len := by
    show ¬ 0 < (fetch "" 1).len
    omega
  rw [if_neg h0] at hrun
  simp only [get_league_entries_as_csv]
  rw [hv, if_pos rfl, hrun]
  simp [flattenResult, hsp, initState]

theorem special_tier_empty_crash_witness :
    get_league_entries_as_csv "na1" "RANKED_SOLO_5x5" "MASTER" [] "True"
        (fun _ _ => (Resp.emptyObj : Resp Nat)) (0 + 1) "TS" = RunOutcome.runtimeError :=
  special_tier_empty_crash Nat "na1" "RANKED_SOLO_5x5" "MASTER" "True" "TS"
    (fun _ _ => Resp.emptyObj) 0 rfl rfl rfl

end LeagueCsv
